import Mathlib

/-!
Verification of the NAS_SFTP_API image server (src/main.go).

The development shallowly embeds the core of the program:
* the image classifier `isImageFile` and `getContentType`, together with a
  character-level model of Go `filepath.Ext` (Unix path separator) and of
  `strings.ToLower` (the recognized extensions are ASCII, where Go and the
  ASCII lowering agree);
* the recursive directory indexer `listFoldersRecursively`, over an inductive
  model of the remote tree in which each directory carries the outcome of its
  `ReadDir` call;
* the HTTP handler `getRandomImage`, instrumented with a trace of the remote
  calls it performs, parametric in the remote accessor and in the RFC 3339
  time formatter (both are external collaborators of the core).
-/

/-- Model of Go `filepath.Ext`: scan the path backwards; stop at a path
separator; the extension is the suffix that starts at the last dot of the
final path element.  The first argument accumulates the characters already
passed over (in original order). -/
def extFromRev : List Char → List Char → List Char
  | _, [] => []
  | acc, c :: rest =>
    if c = '/' then []
    else if c = '.' then '.' :: acc
    else extFromRev (c :: acc) rest

/-- Go `filepath.Ext` on Unix: the file name extension, empty when the final
element of the path has no dot. -/
def filepathExt (path : String) : String :=
  ⟨extFromRev [] path.data.reverse⟩

/-- Model of Go `strings.ToLower` restricted to ASCII (the recognized image
extensions are ASCII, where the Unicode and ASCII lowerings agree). -/
def stringsToLower (s : String) : String :=
  ⟨s.data.map Char.toLower⟩

/-- The fixed list of recognized image extensions from `isImageFile`
(src/main.go line 35). -/
def imageExts : List String :=
  [".jpg", ".jpeg", ".png", ".gif", ".bmp", ".webp", ".tiff", ".tif", ".svg"]

/-- Embedding of `isImageFile` (src/main.go lines 33-42): lowercase the
extension and compare against the fixed list. -/
def isImageFile (filename : String) : Bool :=
  let ext := stringsToLower (filepathExt filename)
  imageExts.any (fun imgExt => ext == imgExt)

/-- Embedding of `getContentType` (src/main.go lines 44-64): a switch on the
lowercased extension with fallback `image/jpeg`. -/
def getContentType (filename : String) : String :=
  let ext := stringsToLower (filepathExt filename)
  if ext == ".jpg" || ext == ".jpeg" then "image/jpeg"
  else if ext == ".png" then "image/png"
  else if ext == ".gif" then "image/gif"
  else if ext == ".bmp" then "image/bmp"
  else if ext == ".webp" then "image/webp"
  else if ext == ".tiff" || ext == ".tif" then "image/tiff"
  else if ext == ".svg" then "image/svg+xml"
  else "image/jpeg"

/-- The extensions that appear as explicit (non-fallback) case labels of the
switch in `getContentType` (src/main.go lines 47-60). -/
def getContentTypeCaseExts : List String :=
  [".jpg", ".jpeg", ".png", ".gif", ".bmp", ".webp", ".tiff", ".tif", ".svg"]

/-- Whether the switch in `getContentType` resolves `filename` through an
explicit case label rather than through the default fallback. -/
def hitsNonFallbackCase (filename : String) : Bool :=
  getContentTypeCaseExts.any
    (fun imgExt => stringsToLower (filepathExt filename) == imgExt)

/-- Modelled from the spec: the canonical MIME table of section 4.1, keyed by
lowercase extension. -/
def specMimeTable : List (String × String) :=
  [(".jpg", "image/jpeg"), (".jpeg", "image/jpeg"), (".png", "image/png"),
   (".gif", "image/gif"), (".bmp", "image/bmp"), (".webp", "image/webp"),
   (".tiff", "image/tiff"), (".tif", "image/tiff"), (".svg", "image/svg+xml")]

theorem imageExts_toLower_fixed : ∀ e ∈ imageExts, stringsToLower e = e := by
  decide

/-- C5: `isImageFile` returns true exactly when the extension of the filename,
compared case-insensitively, is one of the nine recognized image extensions;
any other extension, including the empty one, yields false. -/
theorem claim_C5_isImageFile_iff (filename : String) :
    isImageFile filename = true ↔
      ∃ e ∈ ([".jpg", ".jpeg", ".png", ".gif", ".bmp", ".webp",
              ".tiff", ".tif", ".svg"] : List String),
        stringsToLower (filepathExt filename) = stringsToLower e := by
  simp only [isImageFile, List.any_eq_true, beq_iff_eq]
  constructor
  · rintro ⟨e, he, hext⟩
    exact ⟨e, he, by rw [hext, imageExts_toLower_fixed e he]⟩
  · rintro ⟨e, he, hext⟩
    refine ⟨e, he, ?_⟩
    rw [hext, imageExts_toLower_fixed e he]

/-- C5 witness: concrete instantiation at the filename `photo.JPG`. -/
theorem claim_C5_isImageFile_iff_witness :
    isImageFile "photo.JPG" = true :=
  (claim_C5_isImageFile_iff "photo.JPG").mpr ⟨".jpg", by decide, by decide⟩

/-- C6: `getContentType` returns the canonical MIME type of the lowercased
extension according to the MIME table of the spec, and the fallback
`image/jpeg` for any extension outside the table. -/
theorem claim_C6_getContentType_eq_mimeTable (filename : String) :
    getContentType filename =
      ((specMimeTable.lookup (stringsToLower (filepathExt filename))).getD
        "image/jpeg") := by
  simp only [getContentType]
  generalize stringsToLower (filepathExt filename) = s
  simp only [specMimeTable, List.lookup]
  by_cases h1 : s = ".jpg" <;> by_cases h2 : s = ".jpeg" <;> by_cases h3 : s = ".png" <;>
    by_cases h4 : s = ".gif" <;> by_cases h5 : s = ".bmp" <;> by_cases h6 : s = ".webp" <;>
    by_cases h7 : s = ".tiff" <;> by_cases h8 : s = ".tif" <;> by_cases h9 : s = ".svg" <;>
    simp_all [beq_eq_decide]

/-- C7: `isImageFile` and `getContentType` agree on their domain: a filename
is accepted by `isImageFile` exactly when the switch in `getContentType`
resolves it through an explicit, non-fallback case label. -/
theorem claim_C7_classifier_domains_agree (filename : String) :
    isImageFile filename = hitsNonFallbackCase filename := rfl

/-- Model of Go `filepath.Join` for the shapes produced by the walker: a
cleaned absolute directory path joined with a clean entry name (no
separators).  Go cleans `"/" + "/" + name` to `"/" + name`. -/
def filepathJoin (a b : String) : String :=
  if a = "/" then "/" ++ b else a ++ "/" ++ b

/-- Model of the remote tree as seen through `ReadDir`: a directory entry is
either a plain file or a subdirectory; a subdirectory carries the outcome
`ok` of the `ReadDir` call on it (false models a listing failure) together
with the entries that a successful listing returns. -/
inductive Entry where
  | file (name : String)
  | dir (name : String) (ok : Bool) (entries : List Entry)

/-- Go `entry.IsDir()` on a modelled entry. -/
def Entry.isDirEntry : Entry → Bool
  | .file _ => false
  | .dir _ _ _ => true

/-- Go `entry.Name()` on a modelled entry. -/
def Entry.name : Entry → String
  | .file n => n
  | .dir n _ _ => n

/-- The first loop of `listFoldersRecursively` (src/main.go lines 143-149):
some direct non-directory entry classifies as an image. -/
def hasDirectImage (entries : List Entry) : Bool :=
  entries.any fun e => !e.isDirEntry && isImageFile e.name

mutual
/-- Embedding of `listFoldersRecursively` (src/main.go lines 137-170) at a
directory whose `ReadDir` outcome is `ok` with entries `entries`.  The
global `directoriesWithImages` slice is threaded explicitly as `index`.
The result is the new index, whether the call returned a non-nil error
(true exactly when the `ReadDir` of this directory failed), and the trace
of directories on which `ReadDir` was called, in call order. -/
def listFoldersRecursively (rootPath : String) (ok : Bool) (entries : List Entry)
    (index : List String) : List String × Bool × List String :=
  if ok = false then (index, true, [rootPath])
  else
    let index1 := if hasDirectImage entries then index ++ [rootPath] else index
    let r := walkSubdirs rootPath entries index1
    (r.1, false, rootPath :: r.2)
termination_by sizeOf entries + 1

/-- The second loop of `listFoldersRecursively` (src/main.go lines 160-168):
recurse into every directory entry, logging and swallowing any error the
recursive call returns.  Returns the new index and the `ReadDir` trace. -/
def walkSubdirs (rootPath : String) (es : List Entry) (index : List String) :
    List String × List String :=
  match es with
  | [] => (index, [])
  | .file _ :: rest => walkSubdirs rootPath rest index
  | .dir name ok entries :: rest =>
    let r := listFoldersRecursively (filepathJoin rootPath name) ok entries index
    let r2 := walkSubdirs rootPath rest r.1
    (r2.1, r.2.2 ++ r2.2)
termination_by sizeOf es
end

mutual
/-- Modelled from the spec (section 4.2 failure policy): the paths of the
directories that are reachable through successful listings and whose direct
entries contain an image, in depth-first discovery order. -/
def specReadableImageDirs (rootPath : String) (ok : Bool) (entries : List Entry) :
    List String :=
  if ok = false then []
  else
    (if hasDirectImage entries then [rootPath] else []) ++
      specReadableImageDirsOf rootPath entries
termination_by sizeOf entries + 1

/-- Modelled from the spec: the readable image-bearing directories found
below the subdirectory entries of a directory at `rootPath`. -/
def specReadableImageDirsOf (rootPath : String) (es : List Entry) : List String :=
  match es with
  | [] => []
  | .file _ :: rest => specReadableImageDirsOf rootPath rest
  | .dir name ok entries :: rest =>
    specReadableImageDirs (filepathJoin rootPath name) ok entries ++
      specReadableImageDirsOf rootPath rest
termination_by sizeOf es
end

mutual
/-- Modelled from the spec (section 3): the paths of all directories of the
tree, root included, that have at least one direct non-directory entry
classified as an image, in depth-first discovery order. -/
def specImageDirs (rootPath : String) (entries : List Entry) : List String :=
  (if hasDirectImage entries then [rootPath] else []) ++
    specImageDirsOf rootPath entries
termination_by sizeOf entries + 1

/-- Modelled from the spec: the image-bearing directories below the
subdirectory entries of a directory at `rootPath`. -/
def specImageDirsOf (rootPath : String) (es : List Entry) : List String :=
  match es with
  | [] => []
  | .file _ :: rest => specImageDirsOf rootPath rest
  | .dir name _ entries :: rest =>
    specImageDirs (filepathJoin rootPath name) entries ++
      specImageDirsOf rootPath rest
termination_by sizeOf es
end

mutual
/-- Every listing in this subtree entry succeeds. -/
def entryAllOk : Entry → Bool
  | .file _ => true
  | .dir _ ok entries => ok && entriesAllOk entries

/-- Every listing among these entries and their subtrees succeeds. -/
def entriesAllOk : List Entry → Bool
  | [] => true
  | e :: rest => entryAllOk e && entriesAllOk rest
end

mutual
/-- Some directory listing in this subtree entry fails. -/
def entryHasFailure : Entry → Bool
  | .file _ => false
  | .dir _ ok entries => !ok || entriesHaveFailure entries

/-- Some directory listing among these entries and their subtrees fails. -/
def entriesHaveFailure : List Entry → Bool
  | [] => false
  | e :: rest => entryHasFailure e || entriesHaveFailure rest
end

mutual
theorem walk_index_eq (rootPath : String) (ok : Bool) (entries : List Entry)
    (index : List String) :
    (listFoldersRecursively rootPath ok entries index).1 =
      index ++ specReadableImageDirs rootPath ok entries := by
  cases ok with
  | false => simp [listFoldersRecursively, specReadableImageDirs]
  | true =>
    rw [listFoldersRecursively, specReadableImageDirs]
    simp only [walkSubdirs_index_eq rootPath entries]
    cases hasDirectImage entries <;> simp
termination_by sizeOf entries + 1

theorem walkSubdirs_index_eq (rootPath : String) (es : List Entry) :
    ∀ index, (walkSubdirs rootPath es index).1 =
      index ++ specReadableImageDirsOf rootPath es := by
  match es with
  | [] => intro index; simp [walkSubdirs, specReadableImageDirsOf]
  | .file n :: rest =>
    intro index
    rw [walkSubdirs, specReadableImageDirsOf]
    exact walkSubdirs_index_eq rootPath rest index
  | .dir name ok entries :: rest =>
    intro index
    rw [walkSubdirs, specReadableImageDirsOf]
    rw [walkSubdirs_index_eq rootPath rest,
      walk_index_eq (filepathJoin rootPath name) ok entries index]
    simp
termination_by sizeOf es
end

theorem walk_error_eq (rootPath : String) (ok : Bool) (entries : List Entry)
    (index : List String) :
    (listFoldersRecursively rootPath ok entries index).2.1 = !ok := by
  cases ok <;> rw [listFoldersRecursively] <;> rfl

mutual
theorem specReadable_eq_specImageDirs (rootPath : String) (entries : List Entry)
    (hAll : entriesAllOk entries = true) :
    specReadableImageDirs rootPath true entries = specImageDirs rootPath entries := by
  rw [specReadableImageDirs, specImageDirs]
  simp only [Bool.true_eq_false, if_false]
  rw [specReadableOf_eq_specImageDirsOf rootPath entries hAll]
termination_by sizeOf entries + 1

theorem specReadableOf_eq_specImageDirsOf (rootPath : String) (es : List Entry)
    (hAll : entriesAllOk es = true) :
    specReadableImageDirsOf rootPath es = specImageDirsOf rootPath es := by
  match es with
  | [] => rw [specReadableImageDirsOf, specImageDirsOf]
  | .file n :: rest =>
    rw [specReadableImageDirsOf, specImageDirsOf]
    exact specReadableOf_eq_specImageDirsOf rootPath rest
      (by simpa [entriesAllOk, entryAllOk] using hAll)
  | .dir name ok entries :: rest =>
    rw [specReadableImageDirsOf, specImageDirsOf]
    simp only [entriesAllOk, entryAllOk, Bool.and_eq_true] at hAll
    rw [hAll.1.1]
    rw [specReadable_eq_specImageDirs (filepathJoin rootPath name) entries hAll.1.2]
    rw [specReadableOf_eq_specImageDirsOf rootPath rest hAll.2]
termination_by sizeOf es
end

/-- C1: over a tree (inductive, hence acyclic; the walk is a total function,
hence terminates) in which every directory listing succeeds, the walk
returns no error and the resulting index contains exactly the paths of the
directories having at least one direct non-directory entry classified as an
image. -/
theorem claim_C1_buildIndex_sound_complete (rootPath : String)
    (entries : List Entry) (hAll : entriesAllOk entries = true) :
    (listFoldersRecursively rootPath true entries []).2.1 = false ∧
      ∀ p, p ∈ (listFoldersRecursively rootPath true entries []).1 ↔
        p ∈ specImageDirs rootPath entries := by
  refine ⟨walk_error_eq rootPath true entries [], fun p => ?_⟩
  rw [walk_index_eq, specReadable_eq_specImageDirs rootPath entries hAll]
  simp

/-- C1 witness: a concrete all-readable tree with two image-bearing
directories and one without. -/
theorem claim_C1_buildIndex_sound_complete_witness :
    entriesAllOk
        [Entry.file "photo.JPG", Entry.file "notes.txt",
         Entry.dir "b" true [Entry.file "img.png"],
         Entry.dir "c" true []] = true ∧
      ((listFoldersRecursively "/"
            true
            [Entry.file "photo.JPG", Entry.file "notes.txt",
             Entry.dir "b" true [Entry.file "img.png"],
             Entry.dir "c" true []] []).2.1 = false ∧
        ∀ p, p ∈ (listFoldersRecursively "/"
            true
            [Entry.file "photo.JPG", Entry.file "notes.txt",
             Entry.dir "b" true [Entry.file "img.png"],
             Entry.dir "c" true []] []).1 ↔
          p ∈ specImageDirs "/"
            [Entry.file "photo.JPG", Entry.file "notes.txt",
             Entry.dir "b" true [Entry.file "img.png"],
             Entry.dir "c" true []]) :=
  ⟨by decide,
    claim_C1_buildIndex_sound_complete "/"
      [Entry.file "photo.JPG", Entry.file "notes.txt",
       Entry.dir "b" true [Entry.file "img.png"],
       Entry.dir "c" true []] (by decide)⟩

/-- C2: a failing subdirectory listing never aborts the build: when the root
listing succeeds, the walk returns no error even though some subdirectory
listing fails, and the index receives the contribution of every readable
image-bearing directory (those reachable through successful listings). -/
theorem claim_C2_subtree_failure_tolerated (rootPath : String)
    (entries : List Entry) (index : List String)
    (hFail : entriesHaveFailure entries = true) :
    (listFoldersRecursively rootPath true entries index).2.1 = false ∧
      (listFoldersRecursively rootPath true entries index).1 =
        index ++ specReadableImageDirs rootPath true entries :=
  ⟨walk_error_eq rootPath true entries index, walk_index_eq rootPath true entries index⟩

/-- C2 witness: a tree whose first subdirectory fails to list while a second
readable subdirectory contributes its path to the index. -/
theorem claim_C2_subtree_failure_tolerated_witness :
    entriesHaveFailure
        [Entry.dir "bad" false [], Entry.dir "good" true [Entry.file "x.jpg"]] = true ∧
      ((listFoldersRecursively "/" true
            [Entry.dir "bad" false [], Entry.dir "good" true [Entry.file "x.jpg"]]
            []).2.1 = false ∧
        (listFoldersRecursively "/" true
            [Entry.dir "bad" false [], Entry.dir "good" true [Entry.file "x.jpg"]]
            []).1 =
          [] ++ specReadableImageDirs "/" true
            [Entry.dir "bad" false [], Entry.dir "good" true [Entry.file "x.jpg"]]) :=
  ⟨by decide,
    claim_C2_subtree_failure_tolerated "/"
      [Entry.dir "bad" false [], Entry.dir "good" true [Entry.file "x.jpg"]]
      [] (by decide)⟩

/-- C9: when the listing of the root itself fails, `listFoldersRecursively`
returns that error immediately, the index is exactly what it was before the
call (empty at startup), and no further directory listing is attempted: the
trace holds only the root. -/
theorem claim_C9_root_failure_aborts (rootPath : String) (entries : List Entry)
    (index : List String) :
    listFoldersRecursively rootPath false entries index = (index, true, [rootPath]) := by
  rw [listFoldersRecursively]
  simp

/-- One entry of a request-time `ReadDir` result: name, `IsDir()`, and
`ModTime()` (modelled as an abstract instant). -/
structure FileInfo where
  name : String
  isDirFlag : Bool
  modTime : Nat
deriving DecidableEq

/-- Embedding of the `ImageInfo` struct (src/main.go lines 28-31). -/
structure ImageInfo where
  path : String
  creationDate : Nat
deriving DecidableEq

/-- The remote accessor as `getRandomImage` uses it: `ReadDir`, `Open` and
`ReadAll`, each either failing with an error message or succeeding. -/
structure RemoteFS where
  readDir : String → Except String (List FileInfo)
  openFile : String → Except String Unit
  readAll : String → Except String (List Nat)

/-- One remote operation performed by the handler, recorded in call order. -/
inductive RemoteCall where
  | readDir (path : String)
  | openFile (path : String)
  | readAll (path : String)
deriving DecidableEq

/-- The observable HTTP response of the handler: either `c.JSON(status,
gin.H with key error)` or `c.Data(status, contentType, body)` together with
the headers set before it. -/
inductive Response where
  | jsonError (status : Nat) (msg : String)
  | payload (status : Nat) (headers : List (String × String))
      (contentType : String) (body : List Nat)
deriving DecidableEq

/-- The image-collecting loop of `getRandomImage` (src/main.go lines 89-98):
every direct non-directory entry classified as an image becomes an
`ImageInfo` with the joined path and the entry modification time, in entry
order. -/
def collectImages (dir : String) : List FileInfo → List ImageInfo
  | [] => []
  | e :: rest =>
    if !e.isDirFlag && isImageFile e.name then
      { path := filepathJoin dir e.name, creationDate := e.modTime } ::
        collectImages dir rest
    else collectImages dir rest

/-- Embedding of `getRandomImage` (src/main.go lines 66-128).  `dirs` is the
`directoriesWithImages` slice, `fmtRFC3339` models `time.Time.Format
(time.RFC3339)` of the Go standard library, and `r1`, `r2` are the values
returned by the two `rand.Intn` calls (each less than its bound on every
real execution).  The result carries the trace of remote calls. -/
def getRandomImage (fs : RemoteFS) (fmtRFC3339 : Nat → String)
    (dirs : List String) (r1 r2 : Nat) : Response × List RemoteCall :=
  if dirs.length = 0 then
    (.jsonError 404 "No directories with images found", [])
  else
    let randomDir := dirs.getD r1 ""
    match fs.readDir randomDir with
    | .error e =>
      (.jsonError 500 ("Failed to read directory: " ++ e), [.readDir randomDir])
    | .ok entries =>
      let images := collectImages randomDir entries
      if images.length = 0 then
        (.jsonError 404 "No images found in selected directory", [.readDir randomDir])
      else
        let randomImage := images.getD r2 ⟨"", 0⟩
        match fs.openFile randomImage.path with
        | .error e =>
          (.jsonError 500 ("Failed to open image file: " ++ e),
            [.readDir randomDir, .openFile randomImage.path])
        | .ok _ =>
          match fs.readAll randomImage.path with
          | .error e =>
            (.jsonError 500 ("Failed to read image file: " ++ e),
              [.readDir randomDir, .openFile randomImage.path,
               .readAll randomImage.path])
          | .ok imageData =>
            let contentType := getContentType randomImage.path
            (.payload 200
              [("Access-Control-Allow-Origin", "*"),
               ("Access-Control-Allow-Methods", "GET, OPTIONS"),
               ("Access-Control-Allow-Headers", "Content-Type"),
               ("Content-Type", contentType),
               ("X-Creation-Date", fmtRFC3339 randomImage.creationDate)]
              contentType imageData,
             [.readDir randomDir, .openFile randomImage.path,
              .readAll randomImage.path])

/-- C3: with an empty index, the handler returns the 404 JSON error for
missing indexed directories and performs no remote call at all. -/
theorem claim_C3_empty_index_no_io (fs : RemoteFS) (fmtRFC3339 : Nat → String)
    (r1 r2 : Nat) :
    getRandomImage fs fmtRFC3339 [] r1 r2 =
      (.jsonError 404 "No directories with images found", []) := rfl

theorem extFromRev_append_sep (rest : List Char) (l : List Char) (acc : List Char) :
    '/' ∉ l → extFromRev acc (l ++ '/' :: rest) = extFromRev acc l := by
  induction l generalizing acc with
  | nil => intro h; simp [extFromRev]
  | cons c l ih =>
    intro h
    have hc : ¬ c = '/' := fun hc => h (hc ▸ List.mem_cons_self c l)
    by_cases hdot : c = '.'
    · subst hdot; simp [extFromRev, hc]
    · rw [List.cons_append]
      simp only [extFromRev, if_neg hc, if_neg hdot]
      exact ih (c :: acc) (fun hm => h (List.mem_cons_of_mem c hm))

theorem filepathExt_join (dir n : String) (h : '/' ∉ n.data) :
    filepathExt (filepathJoin dir n) = filepathExt n := by
  rw [filepathExt, filepathExt, filepathJoin]
  have hn : '/' ∉ n.data.reverse := by simpa using h
  by_cases hd : dir = "/"
  · rw [if_pos hd]
    have hdata : ("/" ++ n).data.reverse = n.data.reverse ++ '/' :: [] := by
      simp [String.data_append]
    rw [hdata]
    exact congrArg String.mk (extFromRev_append_sep [] n.data.reverse [] hn)
  · rw [if_neg hd]
    have hdata : (dir ++ "/" ++ n).data.reverse =
        n.data.reverse ++ '/' :: dir.data.reverse := by
      simp [String.data_append]
    rw [hdata]
    exact congrArg String.mk
      (extFromRev_append_sep dir.data.reverse n.data.reverse [] hn)

theorem getContentType_join (dir n : String) (h : '/' ∉ n.data) :
    getContentType (filepathJoin dir n) = getContentType n := by
  simp only [getContentType, filepathExt_join dir n h]

/-- C4: failure handling of the handler, at the directory selected by the
first `rand.Intn` value: a failed listing yields the 500 JSON error carrying
the underlying message; a successful listing with no image yields the 404
JSON error; a failed open or a failed read yields the 500 JSON error
carrying the underlying message.  In each case the remote-call trace shows a
single listing attempt of the chosen directory and no fallback or retry. -/
theorem claim_C4_error_cases (fs : RemoteFS) (fmt : Nat → String)
    (dirs : List String) (r1 r2 : Nat) (h1 : r1 < dirs.length) :
    (∀ e, fs.readDir (dirs.getD r1 "") = .error e →
      getRandomImage fs fmt dirs r1 r2 =
        (.jsonError 500 ("Failed to read directory: " ++ e),
         [.readDir (dirs.getD r1 "")])) ∧
    (∀ entries, fs.readDir (dirs.getD r1 "") = .ok entries →
      collectImages (dirs.getD r1 "") entries = [] →
      getRandomImage fs fmt dirs r1 r2 =
        (.jsonError 404 "No images found in selected directory",
         [.readDir (dirs.getD r1 "")])) ∧
    (∀ entries e, fs.readDir (dirs.getD r1 "") = .ok entries →
      r2 < (collectImages (dirs.getD r1 "") entries).length →
      fs.openFile ((collectImages (dirs.getD r1 "") entries).getD r2 ⟨"", 0⟩).path =
        .error e →
      getRandomImage fs fmt dirs r1 r2 =
        (.jsonError 500 ("Failed to open image file: " ++ e),
         [.readDir (dirs.getD r1 ""),
          .openFile ((collectImages (dirs.getD r1 "") entries).getD r2 ⟨"", 0⟩).path])) ∧
    (∀ entries e, fs.readDir (dirs.getD r1 "") = .ok entries →
      r2 < (collectImages (dirs.getD r1 "") entries).length →
      fs.openFile ((collectImages (dirs.getD r1 "") entries).getD r2 ⟨"", 0⟩).path =
        .ok () →
      fs.readAll ((collectImages (dirs.getD r1 "") entries).getD r2 ⟨"", 0⟩).path =
        .error e →
      getRandomImage fs fmt dirs r1 r2 =
        (.jsonError 500 ("Failed to read image file: " ++ e),
         [.readDir (dirs.getD r1 ""),
          .openFile ((collectImages (dirs.getD r1 "") entries).getD r2 ⟨"", 0⟩).path,
          .readAll ((collectImages (dirs.getD r1 "") entries).getD r2 ⟨"", 0⟩).path])) := by
  have h0 : ¬ dirs.length = 0 := by omega
  refine ⟨?_, ?_, ?_, ?_⟩
  · intro e hre
    simp only [getRandomImage, if_neg h0, hre]
  · intro entries hre hempty
    simp only [getRandomImage, if_neg h0, hre, hempty]
    simp
  · intro entries e hre h2 hopen
    have h3 : ¬ (collectImages (dirs.getD r1 "") entries).length = 0 := by omega
    simp only [getRandomImage, if_neg h0, hre, if_neg h3, hopen]
  · intro entries e hre h2 hopen hread
    have h3 : ¬ (collectImages (dirs.getD r1 "") entries).length = 0 := by omega
    simp only [getRandomImage, if_neg h0, hre, if_neg h3, hopen, hread]

/-- C4 witness: a one-directory index whose listing fails with message
`boom` produces the 500 JSON error carrying `boom` after a single listing
attempt. -/
theorem claim_C4_error_cases_witness :
    getRandomImage
        ⟨fun _ => .error "boom", fun _ => .error "x", fun _ => .error "x"⟩
        (fun _ => "") ["/a"] 0 0 =
      (.jsonError 500 ("Failed to read directory: " ++ "boom"), [.readDir "/a"]) :=
  (claim_C4_error_cases
      ⟨fun _ => .error "boom", fun _ => .error "x", fun _ => .error "x"⟩
      (fun _ => "") ["/a"] 0 0 (by decide)).1 "boom" rfl

/-- C8: on the success path the handler returns status 200, the raw bytes
read from the chosen file as body, the classifier MIME type of the chosen
path as `Content-Type`, the formatted modification instant as
`X-Creation-Date`, and the three CORS headers; moreover for any entry name
free of separators the classifier gives the joined path the same MIME type
as the bare name. -/
theorem claim_C8_success_response (fs : RemoteFS) (fmt : Nat → String)
    (dirs : List String) (r1 r2 : Nat) (entries : List FileInfo) (bytes : List Nat)
    (h1 : r1 < dirs.length)
    (hrd : fs.readDir (dirs.getD r1 "") = .ok entries)
    (h2 : r2 < (collectImages (dirs.getD r1 "") entries).length)
    (hopen : fs.openFile
        ((collectImages (dirs.getD r1 "") entries).getD r2 ⟨"", 0⟩).path = .ok ())
    (hread : fs.readAll
        ((collectImages (dirs.getD r1 "") entries).getD r2 ⟨"", 0⟩).path = .ok bytes) :
    (getRandomImage fs fmt dirs r1 r2 =
      (.payload 200
        [("Access-Control-Allow-Origin", "*"),
         ("Access-Control-Allow-Methods", "GET, OPTIONS"),
         ("Access-Control-Allow-Headers", "Content-Type"),
         ("Content-Type",
           getContentType
             ((collectImages (dirs.getD r1 "") entries).getD r2 ⟨"", 0⟩).path),
         ("X-Creation-Date",
           fmt ((collectImages (dirs.getD r1 "") entries).getD r2 ⟨"", 0⟩).creationDate)]
        (getContentType
          ((collectImages (dirs.getD r1 "") entries).getD r2 ⟨"", 0⟩).path)
        bytes,
       [.readDir (dirs.getD r1 ""),
        .openFile ((collectImages (dirs.getD r1 "") entries).getD r2 ⟨"", 0⟩).path,
        .readAll ((collectImages (dirs.getD r1 "") entries).getD r2 ⟨"", 0⟩).path])) ∧
      ∀ d nm, '/' ∉ nm.data →
        getContentType (filepathJoin d nm) = getContentType nm := by
  have h0 : ¬ dirs.length = 0 := by omega
  have h3 : ¬ (collectImages (dirs.getD r1 "") entries).length = 0 := by omega
  refine ⟨?_, fun d nm h => getContentType_join d nm h⟩
  simp only [getRandomImage, if_neg h0, hrd, if_neg h3, hopen, hread]

/-- C8 witness: serving the single image `cat.jpg` of directory `/a` with
three raw bytes and modification instant 5. -/
theorem claim_C8_success_response_witness :
    getRandomImage
        ⟨fun _ => .ok [⟨"cat.jpg", false, 5⟩], fun _ => .ok (),
         fun _ => .ok [1, 2, 3]⟩
        (fun t => toString t) ["/a"] 0 0 =
      (.payload 200
        [("Access-Control-Allow-Origin", "*"),
         ("Access-Control-Allow-Methods", "GET, OPTIONS"),
         ("Access-Control-Allow-Headers", "Content-Type"),
         ("Content-Type", getContentType "/a/cat.jpg"),
         ("X-Creation-Date", toString 5)]
        (getContentType "/a/cat.jpg") [1, 2, 3],
       [.readDir "/a", .openFile "/a/cat.jpg", .readAll "/a/cat.jpg"]) :=
  (claim_C8_success_response
      ⟨fun _ => .ok [⟨"cat.jpg", false, 5⟩], fun _ => .ok (),
       fun _ => .ok [1, 2, 3]⟩
      (fun t => toString t) ["/a"] 0 0 [⟨"cat.jpg", false, 5⟩] [1, 2, 3]
      (by decide) rfl (by decide) rfl rfl).1

/-- C10: a filename that is only a recognized extension, such as the hidden
file `.jpg`, is classified as an image: the extension extraction yields the
whole name, the classifier accepts it, the walker indexes a directory whose
only entry is such a file, and the request-time collector lists it like any
other image. -/
theorem claim_C10_bare_extension_is_image :
    filepathExt ".jpg" = ".jpg" ∧ isImageFile ".jpg" = true ∧
      listFoldersRecursively "/photos" true [Entry.file ".jpg"] [] =
        (["/photos"], false, ["/photos"]) ∧
      collectImages "/photos" [⟨".jpg", false, 7⟩] = [⟨"/photos/.jpg", 7⟩] := by
  refine ⟨by decide, by decide, ?_, by decide⟩
  have h : hasDirectImage [Entry.file ".jpg"] = true := by decide
  rw [listFoldersRecursively]
  simp [h, walkSubdirs]
